import Mathlib

/-!
Verification of the rename engine of the repository
(`functions/file_renamer.py`, `functions/encoding_utils.py`).

Embedding conventions:
blue strings are modelled as `List Char`; the filesystem as an existence
predicate `List Char → Bool` on paths; `Path.rename` as an update of the
predicate (POSIX semantics: the target entry is replaced); `datetime.now`
outputs are explicit parameters; the persisted history file as the list
of snapshots written to it.
-/

/-- Convert a Lean string literal to the `List Char` representation used
throughout this development. -/
def cs (s : String) : List Char := s.data

/-- Python `str.isspace` for the characters handled by the engine
(ASCII whitespace). -/
def pyIsSpace (c : Char) : Bool :=
  c == ' ' || c == '\t' || c == '\n' || c == '\r' || c == '\x0b' || c == '\x0c'

/-- Worker for `pyWords`: accumulates the current word (reversed). -/
def pyWordsGo : List Char → List Char → List (List Char)
  | [], acc => if acc.isEmpty then [] else [acc.reverse]
  | c :: rest, acc =>
    if pyIsSpace c then
      if acc.isEmpty then pyWordsGo rest [] else acc.reverse :: pyWordsGo rest []
    else pyWordsGo rest (c :: acc)

/-- Python `str.split()` with no argument: split on whitespace runs,
discarding empty pieces. -/
def pyWords (l : List Char) : List (List Char) := pyWordsGo l []

/-- Python `' '.join(s.split())`: collapse whitespace runs to single
spaces and trim the ends. -/
def splitJoin (l : List Char) : List Char := List.intercalate [' '] (pyWords l)

/-- Python `str.strip()`: remove whitespace from both ends. -/
def pyStrip (l : List Char) : List Char :=
  ((l.dropWhile pyIsSpace).reverse.dropWhile pyIsSpace).reverse

/-- Python `str.rstrip('.')`. -/
def rstripDot (l : List Char) : List Char :=
  (l.reverse.dropWhile (· == '.')).reverse

/-- Python `s.rsplit(' ', 1)[0]`: everything before the last space, or
the whole string when it has no space. -/
def cutAtLastSpace (l : List Char) : List Char :=
  match l.reverse.dropWhile (· != ' ') with
  | [] => l
  | _ :: t => t.reverse

/-- The characters forbidden in Windows filenames, as listed in
`safe_filename` (`encoding_utils.py`). -/
def forbiddenChars : List Char := cs "<>:\"/\\|?*"

/-- `safe_filename` from `encoding_utils.py`. -/
def safe_filename (filename : List Char) (maxLength : Nat) : List Char :=
  let s1 := filename.map (fun c => if c ∈ forbiddenChars then '_' else c)
  let s2 := pyStrip s1
  let s3 := splitJoin s2
  let s4 := if maxLength < s3.length then cutAtLastSpace (s3.take maxLength) else s3
  let s5 := rstripDot s4
  if s5.isEmpty then cs "arquivo_sem_nome" else s5

/-- `normalize_text` from `encoding_utils.py`: drop control characters
(code points below 32), then the two `replace` calls turning line breaks
into spaces, then collapse whitespace runs. -/
def normalize_text (text : List Char) : List Char :=
  let n1 := text.filter (fun c => 32 ≤ c.toNat)
  let n2 := n1.map (fun c => if c = '\n' then ' ' else c)
  let n3 := n2.map (fun c => if c = '\r' then ' ' else c)
  splitJoin n3

/-- `pathlib.Path(p).name` for POSIX-style path strings: the part after
the last slash, trailing slashes ignored. -/
def pyName (p : List Char) : List Char :=
  ((p.reverse.dropWhile (· == '/')).takeWhile (· != '/')).reverse

/-- `pathlib.Path(p).suffix`: from the last dot of the name to its end,
empty when the dot is absent, first, or last. -/
def pySuffix (p : List Char) : List Char :=
  let r := (pyName p).reverse
  let j := (r.takeWhile (· != '.')).length
  if j = r.length then []
  else if j = 0 then []
  else if j + 1 = r.length then []
  else '.' :: (r.takeWhile (· != '.')).reverse

/-- `pathlib.Path(p).stem`: the name without its suffix. -/
def pyStem (p : List Char) : List Char :=
  let n := pyName p
  n.take (n.length - (pySuffix p).length)

/-- `pathlib.Path(p).parent` rendered as a string. -/
def pyParent (p : List Char) : List Char :=
  let q := p.reverse.dropWhile (· == '/')
  let rest := q.dropWhile (· != '/')
  let par := rest.dropWhile (· == '/')
  if rest.isEmpty then cs "."
  else if par.isEmpty then cs "/"
  else par.reverse

/-- `Path(par) / nm` rendered as a string. -/
def pyJoin (par nm : List Char) : List Char :=
  if par = cs "." then nm
  else if par = cs "/" then '/' :: nm
  else par ++ '/' :: nm

/-- `clean_title.replace(' ', '_')` from `_generate_new_filename`. -/
def underscoreSpaces (l : List Char) : List Char :=
  l.map (fun c => if c = ' ' then '_' else c)

/-- The `''.join(c for c in clean_title if c.isalnum() or c in '-_')`
filter from `_generate_new_filename`. -/
def keepStemChars (l : List Char) : List Char :=
  l.filter (fun c => c.isAlphanum || c == '-' || c == '_')

/-- The title-cleaning pipeline of `_generate_new_filename`
(`file_renamer.py` lines 58-68): normalization, sanitization at length
100, space-to-underscore, the alphanumeric/dash/underscore filter, and
the `arquivo` fallback. -/
def cleanTitle (title : List Char) : List Char :=
  let ct0 := if title.isEmpty then cs "arquivo" else normalize_text title
  let ct3 := keepStemChars (underscoreSpaces (safe_filename ct0 100))
  if ct3.isEmpty || ct3 == cs "_" then cs "arquivo" else ct3

/-- `FileRenamer._generate_new_filename` from `file_renamer.py`:
`f"{clean_title}_{timestamp}{extension}"` with the extension taken
verbatim from the original path. -/
def generate_new_filename (title originalPath timestamp : List Char) : List Char :=
  cleanTitle title ++ '_' :: (timestamp ++ pySuffix originalPath)

/-- Python `f"{n:03d}"` for `n ≤ 999`. -/
def fmt3 (n : Nat) : List Char :=
  [Char.ofNat (48 + n / 100), Char.ofNat (48 + n / 10 % 10), Char.ofNat (48 + n % 10)]

/-- The counter-suffixed candidate tried by `_resolve_name_conflict`. -/
def conflict_candidate (target : List Char) (counter : Nat) : List Char :=
  pyJoin (pyParent target) (pyStem target ++ '_' :: (fmt3 counter ++ pySuffix target))

/-- The unchecked fallback path built by `_resolve_name_conflict` once the
counter exceeds 999: the stem plus the 17-character slice of the precise
`datetime.now` timestamp. -/
def fallback_path (target preciseTs : List Char) : List Char :=
  pyJoin (pyParent target) (pyStem target ++ '_' :: (preciseTs.take 17 ++ pySuffix target))

/-- The `while True` loop of `_resolve_name_conflict`; `fuel` counts the
remaining candidate checks (999 at entry, so fuel 0 is unreachable). -/
def resolve_loop (fs : List Char → Bool) (target preciseTs : List Char) :
    Nat → Nat → List Char
  | _, 0 => fallback_path target preciseTs
  | counter, fuel + 1 =>
    let cand := conflict_candidate target counter
    if fs cand = false then cand
    else if 999 < counter + 1 then fallback_path target preciseTs
    else resolve_loop fs target preciseTs (counter + 1) fuel

/-- `FileRenamer._resolve_name_conflict` from `file_renamer.py`, with the
filesystem and the `datetime.now` string as explicit parameters. -/
def resolve_name_conflict (fs : List Char → Bool) (target preciseTs : List Char) :
    List Char :=
  if fs target = false then target else resolve_loop fs target preciseTs 1 999

/-- Python `str.lower()` (ASCII range). -/
def toLowerL (l : List Char) : List Char := l.map Char.toLower

/-- `FileRenamer._get_file_type_from_extension` from `file_renamer.py`. -/
def get_file_type_from_extension (extension : List Char) : List Char :=
  let e := toLowerL extension
  if e = cs ".doc" ∨ e = cs ".docx" then cs "word"
  else if e = cs ".xls" ∨ e = cs ".xlsx" then cs "excel"
  else if e = cs ".ppt" ∨ e = cs ".pptx" then cs "powerpoint"
  else if e = cs ".pdf" then cs "pdf"
  else if e = cs ".csv" then cs "csv"
  else cs "unknown"

/-- An extraction result returned by a content reader
(`reader.read_file` in `file_readers.py`), as consumed by the engine. -/
structure ReadResult where
  success : Bool
  title : List Char
  content_preview : List Char
  error : List Char
  deriving DecidableEq

/-- One entry of the plan produced by `preview_rename`; error entries
leave the ready-only fields empty. -/
structure PlanEntry where
  original_path : List Char
  original_name : List Char
  new_name : List Char
  new_path : List Char
  status : List Char
  title_extracted : List Char
  content_preview : List Char
  error : List Char
  deriving DecidableEq

/-- One successful rename as recorded by `execute_rename`. -/
structure RenameRecord where
  original_path : List Char
  new_path : List Char
  original_name : List Char
  new_name : List Char
  timestamp : List Char
  deriving DecidableEq

/-- One failed rename (or failed revert) record: `{file, error}`. -/
structure FailedRename where
  file : List Char
  error : List Char
  deriving DecidableEq

/-- The operation record appended to history by `execute_rename`. -/
structure OperationRecord where
  operation_id : List Char
  timestamp : List Char
  successful_renames : List RenameRecord
  failed_renames : List FailedRename
  total_files : Nat
  successful_count : Nat
  failed_count : Nat
  deriving DecidableEq

/-- The in-memory history structure of `FileRenamer`. -/
structure History where
  operations : List OperationRecord
  created_at : List Char
  last_operation : Option (List Char)
  deriving DecidableEq

/-- A `FileRenamer` instance together with the persisted side of
`.rename_history.json`: `writes` is the list of snapshots written by
`_save_history`, in order. -/
structure RenamerState where
  history : History
  writes : List History
  deriving DecidableEq

/-- The dictionary returned by `execute_rename`. -/
structure ExecResult where
  operation_id : List Char
  total_files : Nat
  successful : Nat
  failed : Nat
  successful_renames : List RenameRecord
  failed_renames : List FailedRename
  deriving DecidableEq

/-- The dictionary returned by `revert_operation`. -/
structure RevertResult where
  success : Bool
  error : List Char
  reverted_count : Nat
  failed_reverts : List FailedRename
  total_to_revert : Nat
  deriving DecidableEq

/-- Accumulated outcome of the `execute_rename` loop. -/
structure ExecAcc where
  succ : List RenameRecord
  fail : List FailedRename
  fs : List Char → Bool

/-- Accumulated outcome of the `revert_operation` loop. -/
structure RevertAcc where
  count : Nat
  fail : List FailedRename
  fs : List Char → Bool

/-- `Path.rename(old → new)` on the filesystem model: the entry at `new`
comes to exist (an existing target is replaced, POSIX semantics) and the
entry at `old` ceases to. -/
def fsRename (oldP newP : List Char) (fs : List Char → Bool) : List Char → Bool :=
  fun p => if p = newP then true else if p = oldP then false else fs p

/-- The record appended to `successful_renames` for one renamed entry
(`file_renamer.py` lines 222-228). -/
def mkRec (ts : List Char) (e : PlanEntry) : RenameRecord :=
  ⟨e.original_path, e.new_path, e.original_name, e.new_name, ts⟩

/-- The per-entry loop of `execute_rename` (`file_renamer.py` lines
191-234): non-ready entries fail with their own error; ready entries are
re-checked for existence and directory writability, then renamed. -/
def execGo (w : List Char → Bool) (ts : List Char) :
    List PlanEntry → (List Char → Bool) → ExecAcc
  | [], fs => ⟨[], [], fs⟩
  | e :: rest, fs =>
    if e.status ≠ cs "ready" then
      let r := execGo w ts rest fs
      ⟨r.succ, ⟨e.original_name, e.error⟩ :: r.fail, r.fs⟩
    else if fs e.original_path = false then
      let r := execGo w ts rest fs
      ⟨r.succ, ⟨e.original_name, cs "Arquivo não encontrado"⟩ :: r.fail, r.fs⟩
    else if w (pyParent e.original_path) = false then
      let r := execGo w ts rest fs
      ⟨r.succ, ⟨e.original_name, cs "Sem permissão de escrita no diretório"⟩ :: r.fail, r.fs⟩
    else
      let r := execGo w ts rest (fsRename e.original_path e.new_path fs)
      ⟨mkRec ts e :: r.succ, r.fail, r.fs⟩

/-- The operation record assembled at the end of `execute_rename`
(`file_renamer.py` lines 237-245). -/
def buildOperation (w : List Char → Bool) (opId execTs : List Char)
    (plan : List PlanEntry) (fs : List Char → Bool) : OperationRecord :=
  let r := execGo w execTs plan fs
  ⟨opId, execTs, r.succ, r.fail, plan.length, r.succ.length, r.fail.length⟩

/-- `FileRenamer.execute_rename`: runs the plan, appends the operation
record to the in-memory history, persists it (`_save_history`), and
returns the summary dictionary.  `w` models `os.access(·, W_OK)`;
`opId` and `execTs` model the `datetime.now` strings. -/
def execute_rename (w : List Char → Bool) (opId execTs : List Char)
    (s : RenamerState) (plan : List PlanEntry) (fs : List Char → Bool) :
    ExecResult × RenamerState × (List Char → Bool) :=
  let r := execGo w execTs plan fs
  let op := buildOperation w opId execTs plan fs
  let h : History :=
    ⟨s.history.operations ++ [op], s.history.created_at, some opId⟩
  (⟨opId, plan.length, r.succ.length, r.fail.length, r.succ, r.fail⟩,
   ⟨h, s.writes ++ [h]⟩, r.fs)

/-- The linear search for an operation id at the top of
`revert_operation`. -/
def findOperation (ops : List OperationRecord) (opid : List Char) :
    Option OperationRecord :=
  ops.find? (fun op => op.operation_id == opid)

/-- The per-record loop of `revert_operation`: rename each successfully
renamed file back when it still exists, else record a failed revert. -/
def revertGo : List RenameRecord → (List Char → Bool) → RevertAcc
  | [], fs => ⟨0, [], fs⟩
  | r :: rest, fs =>
    if fs r.new_path = true then
      let a := revertGo rest (fsRename r.new_path r.original_path fs)
      ⟨a.count + 1, a.fail, a.fs⟩
    else
      let a := revertGo rest fs
      ⟨a.count, ⟨r.new_name, cs "Arquivo renomeado não encontrado"⟩ :: a.fail, a.fs⟩

/-- `FileRenamer.revert_operation`: looks the operation up in the
in-memory history and replays its successful renames backwards.  Note the
source neither mutates the history nor calls `_save_history` here, so the
state component is returned unchanged. -/
def revert_operation (s : RenamerState) (opid : List Char)
    (fs : List Char → Bool) : RevertResult × RenamerState × (List Char → Bool) :=
  match findOperation s.history.operations opid with
  | none => (⟨false, cs "Operação não encontrada", 0, [], 0⟩, s, fs)
  | some op =>
    let a := revertGo op.successful_renames fs
    (⟨true, [], a.count, a.fail, op.successful_renames.length⟩, s, a.fs)

/-- The display truncation of the content preview used by
`preview_rename` (`file_renamer.py` line 164). -/
def truncPreview (s : List Char) : List Char :=
  if 100 < s.length then s.take 100 ++ cs "..." else s

/-- The body of the `preview_rename` loop for one file path: `none` when
the file's type is not among the selected types (the file is skipped),
otherwise one ready or error plan entry.  `readers` models
`get_file_reader`, `ts` the shared batch timestamp, `preciseTs` the
conflict-resolution fallback timestamp. -/
def preview_one (readers : List Char → Option (List Char → ReadResult))
    (ts preciseTs : List Char) (fs : List Char → Bool)
    (types : List (List Char)) (p : List Char) : Option PlanEntry :=
  let ext := toLowerL (pySuffix p)
  let ftype := get_file_type_from_extension ext
  if ftype ∉ types then none
  else
    match readers ftype with
    | none =>
      some ⟨p, pyName p, [], [], cs "error", [], [],
        cs "Leitor não disponível para tipo " ++ ftype⟩
    | some reader =>
      let rr := reader p
      if rr.success = false then
        some ⟨p, pyName p, [], [], cs "error", [], [], rr.error⟩
      else
        let newFilename := generate_new_filename rr.title p ts
        let target := pyJoin (pyParent p) newFilename
        let finalPath := resolve_name_conflict fs target preciseTs
        some ⟨p, pyName p, pyName finalPath, finalPath, cs "ready",
          rr.title, truncPreview rr.content_preview, []⟩

/-- `FileRenamer.preview_rename`: one pass over the input paths with the
shared timestamp, collecting the per-file plan entries. -/
def preview_rename (readers : List Char → Option (List Char → ReadResult))
    (ts preciseTs : List Char) (fs : List Char → Bool)
    (paths : List (List Char)) (types : List (List Char)) : List PlanEntry :=
  paths.filterMap (preview_one readers ts preciseTs fs types)

/-- The length-16 shape `YYYY-MM-DD_HHhMM` produced by
`_generate_timestamp`: `0` marks a digit position, other pattern
characters are literal. -/
def tsPattern : List Char := cs "0000-00-00_00h00"

/-- One position of the timestamp shape check. -/
def charMatches (pat c : Char) : Bool :=
  if pat = '0' then c.isDigit else c == pat

/-- A string has the form `YYYY-MM-DD_HHhMM`. -/
def isTimestampForm (ts : List Char) : Bool :=
  (ts.length == tsPattern.length) && (List.zipWith charMatches tsPattern ts).all id

theorem zipWith_all_exists (pat : List Char) :
    ∀ l : List Char, pat.length = l.length →
      (List.zipWith charMatches pat l).all id = true →
      ∀ c ∈ l, ∃ p ∈ pat, charMatches p c = true := by
  induction pat with
  | nil =>
    intro l hlen _ c hc
    cases l with
    | nil => cases hc
    | cons a t => cases hlen
  | cons p ps ih =>
    intro l hlen hall c hc
    cases l with
    | nil => cases hc
    | cons a t =>
      simp only [List.zipWith_cons_cons, List.all_cons, Bool.and_eq_true, id] at hall
      rcases List.mem_cons.mp hc with hc | hc
      · exact ⟨p, List.mem_cons_self _ _, by rw [hc]; exact hall.1⟩
      · obtain ⟨q, hq, hqc⟩ := ih t (by simpa using hlen) hall.2 c hc
        exact ⟨q, List.mem_cons_of_mem _ hq, hqc⟩

theorem isTimestampForm_length {ts : List Char} (h : isTimestampForm ts = true) :
    ts.length = 16 := by
  unfold isTimestampForm at h
  simp only [Bool.and_eq_true, beq_iff_eq] at h
  simpa [tsPattern, cs] using h.1

theorem tsForm_chars {ts : List Char} (h : isTimestampForm ts = true) :
    ∀ c ∈ ts, c ∉ forbiddenChars := by
  unfold isTimestampForm at h
  simp only [Bool.and_eq_true, beq_iff_eq] at h
  intro c hc hforb
  obtain ⟨p, hp, hmatch⟩ := zipWith_all_exists tsPattern ts h.1.symm h.2 c hc
  have hallp : ∀ x ∈ tsPattern, x = '0' ∨ x = '-' ∨ x = '_' ∨ x = 'h' := by decide
  have hnd : ∀ x ∈ forbiddenChars, x.isDigit = false := by decide
  rcases hallp p hp with hp0 | hp0 | hp0 | hp0 <;> subst hp0 <;>
    unfold charMatches at hmatch
  · rw [if_pos rfl] at hmatch
    have := hnd c hforb
    rw [hmatch] at this
    cases this
  · rw [if_neg (by decide), beq_iff_eq] at hmatch
    subst hmatch
    exact absurd hforb (by decide)
  · rw [if_neg (by decide), beq_iff_eq] at hmatch
    subst hmatch
    exact absurd hforb (by decide)
  · rw [if_neg (by decide), beq_iff_eq] at hmatch
    subst hmatch
    exact absurd hforb (by decide)

theorem cutAtLastSpace_length_le (l : List Char) :
    (cutAtLastSpace l).length ≤ l.length := by
  unfold cutAtLastSpace
  split
  · exact Nat.le_refl _
  · next c t h =>
    have h1 : (l.reverse.dropWhile (· != ' ')).length ≤ l.reverse.length :=
      (List.dropWhile_suffix _).sublist.length_le
    rw [h] at h1
    simp only [List.length_cons, List.length_reverse] at h1 ⊢
    omega

theorem rstripDot_length_le (l : List Char) : (rstripDot l).length ≤ l.length := by
  have h1 : (l.reverse.dropWhile (· == '.')).length ≤ l.reverse.length :=
    (List.dropWhile_suffix _).sublist.length_le
  unfold rstripDot
  simpa using h1

theorem safe_filename_length_le (f : List Char) :
    (safe_filename f 100).length ≤ 100 := by
  unfold safe_filename
  dsimp only
  set s3 := splitJoin (pyStrip (List.map (fun c => if c ∈ forbiddenChars then '_' else c) f))
    with hs3
  have h4 : ((if 100 < s3.length then cutAtLastSpace (List.take 100 s3) else s3) :
      List Char).length ≤ 100 := by
    split
    · refine le_trans (cutAtLastSpace_length_le _) ?_
      rw [List.length_take]
      exact Nat.min_le_left _ _
    · omega
  set s4 := if 100 < s3.length then cutAtLastSpace (List.take 100 s3) else s3 with hs4
  have h5 : (rstripDot s4).length ≤ 100 := le_trans (rstripDot_length_le _) h4
  split
  · decide
  · exact h5

theorem keepStemChars_length_le (l : List Char) :
    (keepStemChars l).length ≤ l.length :=
  List.length_filter_le _ _

theorem underscoreSpaces_length (l : List Char) :
    (underscoreSpaces l).length = l.length :=
  List.length_map _ _

theorem keepStemChars_not_forbidden (l : List Char) :
    ∀ c ∈ keepStemChars l, c ∉ forbiddenChars := by
  intro c hc hforb
  have hpred := (List.mem_filter.mp hc).2
  have key : ∀ x ∈ forbiddenChars, (x.isAlphanum || x == '-' || x == '_') = false := by
    decide
  have hfalse := key c hforb
  rw [hpred] at hfalse
  cases hfalse

theorem cleanTitle_length_le (t : List Char) : (cleanTitle t).length ≤ 100 := by
  unfold cleanTitle
  dsimp only
  generalize (if t.isEmpty = true then cs "arquivo" else normalize_text t) = ct0
  split
  · decide
  · exact le_trans (keepStemChars_length_le _)
      (le_trans (le_of_eq (underscoreSpaces_length _)) (safe_filename_length_le _))

theorem cleanTitle_not_forbidden (t : List Char) :
    ∀ c ∈ cleanTitle t, c ∉ forbiddenChars := by
  unfold cleanTitle
  dsimp only
  generalize (if t.isEmpty = true then cs "arquivo" else normalize_text t) = ct0
  split
  · decide
  · exact keepStemChars_not_forbidden _

/-- C1: amended form.  For every title, for a timestamp of the form
`YYYY-MM-DD_HHhMM`, and provided the original path's extension itself
contains none of the forbidden characters, `_generate_new_filename`
returns a non-empty name free of the characters `< > : " / \ | ? *`,
of length at most 117 plus the extension length (the stem before the
timestamp is at most 100 characters), ending in the extension taken from
the original path. -/
theorem claim1_theorem (title originalPath timestamp : List Char)
    (hts : isTimestampForm timestamp = true)
    (hext : ∀ c ∈ pySuffix originalPath, c ∉ forbiddenChars) :
    generate_new_filename title originalPath timestamp ≠ [] ∧
    (∀ c ∈ generate_new_filename title originalPath timestamp, c ∉ forbiddenChars) ∧
    (generate_new_filename title originalPath timestamp).length
      ≤ 117 + (pySuffix originalPath).length ∧
    List.IsSuffix (pySuffix originalPath)
      (generate_new_filename title originalPath timestamp) := by
  unfold generate_new_filename
  refine ⟨?_, ?_, ?_, ?_⟩
  · intro h
    have hlen := congrArg List.length h
    simp [List.length_append] at hlen
  · intro c hc
    rcases List.mem_append.mp hc with hc | hc
    · exact cleanTitle_not_forbidden title c hc
    · rcases List.mem_cons.mp hc with hc | hc
      · subst hc
        decide
      · rcases List.mem_append.mp hc with hc | hc
        · exact tsForm_chars hts c hc
        · exact hext c hc
  · have h1 := cleanTitle_length_le title
    have h2 := isTimestampForm_length hts
    rw [List.length_append, List.length_cons, List.length_append, h2]
    omega
  · refine ⟨cleanTitle title ++ '_' :: timestamp, ?_⟩
    simp [List.append_assoc]

/-- C1 witness: the amended theorem applied at a concrete title, path and
timestamp. -/
theorem claim1_witness :
    isTimestampForm (cs "2024-01-01_10h00") = true ∧
    (∀ c ∈ pySuffix (cs "docs/report.docx"), c ∉ forbiddenChars) ∧
    (generate_new_filename (cs "Final Report") (cs "docs/report.docx")
        (cs "2024-01-01_10h00") ≠ [] ∧
      (∀ c ∈ generate_new_filename (cs "Final Report") (cs "docs/report.docx")
          (cs "2024-01-01_10h00"), c ∉ forbiddenChars) ∧
      (generate_new_filename (cs "Final Report") (cs "docs/report.docx")
          (cs "2024-01-01_10h00")).length
        ≤ 117 + (pySuffix (cs "docs/report.docx")).length ∧
      List.IsSuffix (pySuffix (cs "docs/report.docx"))
        (generate_new_filename (cs "Final Report") (cs "docs/report.docx")
          (cs "2024-01-01_10h00"))) :=
  ⟨by decide, by decide, claim1_theorem _ _ _ (by decide) (by decide)⟩

/-- C1 counterexample to the claim as stated: when the original path's
extension itself carries a forbidden character (here `.a?b`), the
character reappears in the synthesized filename, so the output is not
free of `< > : " / \ | ? *`. -/
theorem claim1_counterexample :
    isTimestampForm (cs "2024-01-01_10h00") = true ∧
    '?' ∈ forbiddenChars ∧
    '?' ∈ generate_new_filename (cs "T") (cs "f.a?b") (cs "2024-01-01_10h00") :=
  ⟨by decide, by decide, by decide⟩

/-- C8: the code contradicts the claim (and the dead
`replace('\n', ' ')` call documents the intended behaviour): the control
character filter of `normalize_text` deletes the line break before the
replacement can turn it into a space, so `a\nb` normalizes to `ab` —
the two characters become one token, not two space-separated tokens —
and the synthesized stem is `ab`, not `a_b`. -/
theorem claim8_theorem :
    normalize_text (cs "a\nb") = cs "ab" ∧
    generate_new_filename (cs "a\nb") (cs "f.txt") (cs "2024-01-01_10h00")
      = cs "ab_2024-01-01_10h00.txt" :=
  ⟨by decide, by decide⟩

theorem execGo_length (w : List Char → Bool) (ts : List Char) :
    ∀ (plan : List PlanEntry) (fs : List Char → Bool),
      (execGo w ts plan fs).succ.length + (execGo w ts plan fs).fail.length
        = plan.length := by
  intro plan
  induction plan with
  | nil => intro fs; rfl
  | cons e rest ih =>
    intro fs
    simp only [execGo]
    split
    · have := ih fs
      simp only [List.length_cons]
      omega
    · split
      · have := ih fs
        simp only [List.length_cons]
        omega
      · split
        · have := ih fs
          simp only [List.length_cons]
          omega
        · have := ih (fsRename e.original_path e.new_path fs)
          simp only [List.length_cons]
          omega

/-- C3: the operation record assembled by `execute_rename` (and appended
to the history) counts its lists correctly: `successful_count` and
`failed_count` are the list lengths and `total_files` is their sum —
every plan entry lands in exactly one of the two lists. -/
theorem claim3_theorem (w : List Char → Bool) (opId execTs : List Char)
    (s : RenamerState) (plan : List PlanEntry) (fs : List Char → Bool) :
    (execute_rename w opId execTs s plan fs).2.1.history.operations
      = s.history.operations ++ [buildOperation w opId execTs plan fs] ∧
    (buildOperation w opId execTs plan fs).successful_count
      = (buildOperation w opId execTs plan fs).successful_renames.length ∧
    (buildOperation w opId execTs plan fs).failed_count
      = (buildOperation w opId execTs plan fs).failed_renames.length ∧
    (buildOperation w opId execTs plan fs).total_files
      = (buildOperation w opId execTs plan fs).successful_count
        + (buildOperation w opId execTs plan fs).failed_count := by
  refine ⟨rfl, rfl, rfl, ?_⟩
  exact (execGo_length w execTs plan fs).symm

/-- C7: amended form.  `execute_rename` rewrites the persisted history
file (exactly one `_save_history` write, whose content is the updated
in-memory history); `revert_operation` leaves the `FileRenamer` state —
in-memory history and persisted writes alike — completely unchanged: the
source contains no `_save_history` call on the revert path. -/
theorem claim7_theorem (w : List Char → Bool) (opId execTs : List Char)
    (s : RenamerState) (plan : List PlanEntry) (fs : List Char → Bool) :
    (execute_rename w opId execTs s plan fs).2.1.writes
      = s.writes ++ [(execute_rename w opId execTs s plan fs).2.1.history] ∧
    ∀ (opid : List Char) (fs2 : List Char → Bool),
      (revert_operation s opid fs2).2.1 = s := by
  refine ⟨rfl, ?_⟩
  intro opid fs2
  unfold revert_operation
  cases findOperation s.history.operations opid <;> rfl

/-- C7 counterexample to the claim as stated: a concrete revert call that
succeeds (the operation is found and replayed) yet performs no write to
the persisted store — the write log is the same before and after, so the
persisted history file is not rewritten on revert. -/
theorem claim7_counterexample :
    (revert_operation
        ⟨⟨[⟨cs "op1", cs "t", [], [], 0, 0, 0⟩], cs "T", some (cs "op1")⟩,
          [⟨[⟨cs "op1", cs "t", [], [], 0, 0, 0⟩], cs "T", some (cs "op1")⟩]⟩
        (cs "op1") (fun _ => false)).1.success = true ∧
    (revert_operation
        ⟨⟨[⟨cs "op1", cs "t", [], [], 0, 0, 0⟩], cs "T", some (cs "op1")⟩,
          [⟨[⟨cs "op1", cs "t", [], [], 0, 0, 0⟩], cs "T", some (cs "op1")⟩]⟩
        (cs "op1") (fun _ => false)).2.1.writes.length = 1 ∧
    ¬ (1 < (revert_operation
        ⟨⟨[⟨cs "op1", cs "t", [], [], 0, 0, 0⟩], cs "T", some (cs "op1")⟩,
          [⟨[⟨cs "op1", cs "t", [], [], 0, 0, 0⟩], cs "T", some (cs "op1")⟩]⟩
        (cs "op1") (fun _ => false)).2.1.writes.length) := by
  refine ⟨by decide, by decide, by decide⟩

theorem resolve_loop_free (fs : List Char → Bool) (target preciseTs : List Char) :
    ∀ (fuel counter : Nat), counter + fuel = 1000 →
      (∃ c, counter ≤ c ∧ c ≤ 999 ∧ fs (conflict_candidate target c) = false) →
      fs (resolve_loop fs target preciseTs counter fuel) = false := by
  intro fuel
  induction fuel with
  | zero =>
    intro counter hsum hex
    obtain ⟨c, h1, h2, _⟩ := hex
    omega
  | succ n ih =>
    intro counter hsum hex
    obtain ⟨c, h1, h2, h3⟩ := hex
    simp only [resolve_loop]
    split
    · next hfree => exact hfree
    · next hocc =>
      have hcc : c ≠ counter := by
        intro he
        exact hocc (he ▸ h3)
      split
      · next hbig =>
        omega
      · next hsmall =>
        exact ih (counter + 1) (by omega) ⟨c, by omega, h2, h3⟩

/-- C4: amended form.  Whenever the resolution does not fall into the
over-999 fallback — that is, the target itself is free or some counter
value in 1..999 yields a free candidate — `_resolve_name_conflict`
returns a path that does not exist at call time.  (The fallback path is
returned without an existence check and carries no such guarantee.) -/
theorem claim4_theorem (fs : List Char → Bool) (target preciseTs : List Char)
    (h : fs target = false ∨
      ∃ c, 1 ≤ c ∧ c ≤ 999 ∧ fs (conflict_candidate target c) = false) :
    fs (resolve_name_conflict fs target preciseTs) = false := by
  unfold resolve_name_conflict
  split
  · next hfree => exact hfree
  · next hocc =>
    rcases h with h | h
    · exact absurd h hocc
    · exact resolve_loop_free fs target preciseTs 999 1 rfl h

/-- C4 witness: a colliding target whose first counter candidate is free;
the resolver returns a path that does not exist. -/
theorem claim4_witness :
    ((fun p => p == cs "t.txt") : List Char → Bool) (cs "t.txt") = true ∧
    ((fun p => p == cs "t.txt") : List Char → Bool)
      (resolve_name_conflict (fun p => p == cs "t.txt") (cs "t.txt")
        (cs "20240101_000000_123456")) = false :=
  ⟨by decide,
    claim4_theorem (fun p => p == cs "t.txt") (cs "t.txt") (cs "20240101_000000_123456")
      (Or.inr ⟨1, by decide, by decide, by decide⟩)⟩

set_option maxRecDepth 100000 in
set_option maxHeartbeats 2000000 in
/-- C4 counterexample to the claim as stated: on a filesystem where the
target, every counter candidate and the fallback path all exist, the
resolver returns the fallback path — a path that does exist at call
time, because the fallback branch performs no existence check. -/
theorem claim4_counterexample :
    resolve_name_conflict (fun p => p != cs "zzz") (cs "t.txt")
        (cs "20240101_000000_123456")
      = fallback_path (cs "t.txt") (cs "20240101_000000_123456") ∧
    ((fun p => p != cs "zzz") : List Char → Bool)
      (resolve_name_conflict (fun p => p != cs "zzz") (cs "t.txt")
        (cs "20240101_000000_123456")) = true := by
  refine ⟨by decide, by decide⟩

theorem resolve_loop_ts_indep (fs : List Char → Bool) (target ts1 ts2 : List Char) :
    ∀ (fuel counter : Nat), counter + fuel = 1000 →
      (∃ c, counter ≤ c ∧ c ≤ 999 ∧ fs (conflict_candidate target c) = false) →
      resolve_loop fs target ts1 counter fuel = resolve_loop fs target ts2 counter fuel := by
  intro fuel
  induction fuel with
  | zero =>
    intro counter hsum hex
    obtain ⟨c, h1, h2, _⟩ := hex
    omega
  | succ n ih =>
    intro counter hsum hex
    obtain ⟨c, h1, h2, h3⟩ := hex
    simp only [resolve_loop]
    split
    · rfl
    · next hocc =>
      have hcc : c ≠ counter := by
        intro he
        exact hocc (he ▸ h3)
      split
      · next hbig => omega
      · exact ih (counter + 1) (by omega) ⟨c, by omega, h2, h3⟩

/-- C5: amended form.  With the filesystem unchanged between the calls,
two sequential calls of `_resolve_name_conflict` on the same colliding
target return the SAME path, not two different ones: the resolver is a
pure function of the filesystem state, and in the counter branch its
result does not even depend on the `datetime.now` fallback string (the
only input that differs between two sequential calls).  Distinct paths
arise only when the first result is actually created on the filesystem
before the second call. -/
theorem claim5_theorem (fs : List Char → Bool) (target ts1 ts2 : List Char)
    (hcollide : fs target = true)
    (h : ∃ c, 1 ≤ c ∧ c ≤ 999 ∧ fs (conflict_candidate target c) = false) :
    resolve_name_conflict fs target ts1 = resolve_name_conflict fs target ts2 := by
  unfold resolve_name_conflict
  rw [hcollide]
  simp only [Bool.true_eq_false, if_false]
  exact resolve_loop_ts_indep fs target ts1 ts2 999 1 rfl h

/-- C5 witness: the amended theorem at a concrete colliding target with
two different fallback timestamps. -/
theorem claim5_witness :
    ((fun p => p == cs "t.txt") : List Char → Bool) (cs "t.txt") = true ∧
    resolve_name_conflict (fun p => p == cs "t.txt") (cs "t.txt") (cs "A")
      = resolve_name_conflict (fun p => p == cs "t.txt") (cs "t.txt") (cs "B") :=
  ⟨by decide,
    claim5_theorem (fun p => p == cs "t.txt") (cs "t.txt") (cs "A") (cs "B")
      (by decide) ⟨1, by decide, by decide, by decide⟩⟩

/-- C5 counterexample to the claim as stated: a concrete colliding
target for which two sequential calls (with the filesystem unchanged,
and even with different `datetime.now` fallback strings) return equal
paths — not two different ones. -/
theorem claim5_counterexample :
    ((fun p => p == cs "t.txt") : List Char → Bool) (cs "t.txt") = true ∧
    resolve_name_conflict (fun p => p == cs "t.txt") (cs "t.txt")
        (cs "20240101_000000_111111")
      = resolve_name_conflict (fun p => p == cs "t.txt") (cs "t.txt")
        (cs "20240102_000000_222222") ∧
    resolve_name_conflict (fun p => p == cs "t.txt") (cs "t.txt")
        (cs "20240101_000000_111111") = cs "t_001.txt" := by
  refine ⟨by decide, by decide, by decide⟩

theorem fsRename_false_of {q oldP newP : List Char} {fs : List Char → Bool}
    (h : q ≠ newP) (hq : fs q = false) : fsRename oldP newP fs q = false := by
  unfold fsRename
  rw [if_neg h]
  split
  · rfl
  · exact hq

theorem fsRename_true_of {q oldP newP : List Char} {fs : List Char → Bool}
    (h : q ≠ oldP) (hq : fs q = true) : fsRename oldP newP fs q = true := by
  unfold fsRename
  by_cases h1 : q = newP
  · rw [if_pos h1]
  · rw [if_neg h1, if_neg h]
    exact hq

theorem execGo_fail_notfound (w : List Char → Bool) (ts : List Char) :
    ∀ (plan : List PlanEntry) (fs : List Char → Bool) (e : PlanEntry),
      e ∈ plan → e.status = cs "ready" → fs e.original_path = false →
      (∀ eA ∈ plan, eA.new_path ≠ e.original_path) →
      (⟨e.original_name, cs "Arquivo não encontrado"⟩ : FailedRename)
          ∈ (execGo w ts plan fs).fail := by
  intro plan
  induction plan with
  | nil =>
    intro fs e he
    cases he
  | cons a rest ih =>
    intro fs e he hst hfs hnr
    have hnr' : ∀ eA ∈ rest, eA.new_path ≠ e.original_path :=
      fun eA hA => hnr eA (List.mem_cons_of_mem _ hA)
    rcases List.mem_cons.mp he with he | he
    · subst he
      simp only [execGo]
      repeat' split
      all_goals first
        | exact absurd hst (by assumption)
        | exact absurd hfs (by assumption)
        | exact List.mem_cons_self _ _
    · have hana : a.new_path ≠ e.original_path := hnr a (List.mem_cons_self _ _)
      simp only [execGo]
      repeat' split
      all_goals first
        | exact List.mem_cons_of_mem _ (ih fs e he hst hfs hnr')
        | exact ih _ e he hst (fsRename_false_of (Ne.symm hana) hfs) hnr'

/-- C6: each ready plan entry whose original path does not exist (and is
not re-created by another entry's rename) is recorded by
`execute_rename` in `failed_renames` with the file-not-found reason, and
processing continues: every plan entry is still accounted for in the
returned counts. -/
theorem claim6_theorem (w : List Char → Bool) (opId execTs : List Char)
    (s : RenamerState) (plan : List PlanEntry) (fs : List Char → Bool)
    (e : PlanEntry) (he : e ∈ plan) (hst : e.status = cs "ready")
    (hfs : fs e.original_path = false)
    (hnr : ∀ eA ∈ plan, eA.new_path ≠ e.original_path) :
    (⟨e.original_name, cs "Arquivo não encontrado"⟩ : FailedRename)
        ∈ (execute_rename w opId execTs s plan fs).1.failed_renames ∧
    (execute_rename w opId execTs s plan fs).1.successful
        + (execute_rename w opId execTs s plan fs).1.failed = plan.length :=
  ⟨execGo_fail_notfound w execTs plan fs e he hst hfs hnr,
    execGo_length w execTs plan fs⟩

/-- The concrete 5-entry plan of the C6 scenario: five ready entries. -/
def claim6Plan : List PlanEntry :=
  [⟨cs "a1", cs "a1", cs "b1", cs "b1", cs "ready", [], [], []⟩,
   ⟨cs "a2", cs "a2", cs "b2", cs "b2", cs "ready", [], [], []⟩,
   ⟨cs "a3", cs "a3", cs "b3", cs "b3", cs "ready", [], [], []⟩,
   ⟨cs "a4", cs "a4", cs "b4", cs "b4", cs "ready", [], [], []⟩,
   ⟨cs "a5", cs "a5", cs "b5", cs "b5", cs "ready", [], [], []⟩]

/-- The C6 scenario filesystem: the originals `a4` and `a5` were deleted
externally before execution. -/
def claim6Fs : List Char → Bool :=
  fun p => p == cs "a1" || p == cs "a2" || p == cs "a3"

/-- C6 witness: the 5-entry scenario — 2 originals deleted — yields
`successful = 3`, `failed = 2`, the deleted entries appear in
`failed_renames` with the not-found reason, and the single history
operation records exactly 3 successful renames. -/
theorem claim6_witness :
    (⟨cs "a4", cs "Arquivo não encontrado"⟩ : FailedRename)
        ∈ (execute_rename (fun _ => true) (cs "op") (cs "ts")
            ⟨⟨[], cs "t0", none⟩, []⟩ claim6Plan claim6Fs).1.failed_renames ∧
    (execute_rename (fun _ => true) (cs "op") (cs "ts")
        ⟨⟨[], cs "t0", none⟩, []⟩ claim6Plan claim6Fs).1.successful = 3 ∧
    (execute_rename (fun _ => true) (cs "op") (cs "ts")
        ⟨⟨[], cs "t0", none⟩, []⟩ claim6Plan claim6Fs).1.failed = 2 ∧
    (execute_rename (fun _ => true) (cs "op") (cs "ts")
        ⟨⟨[], cs "t0", none⟩, []⟩ claim6Plan claim6Fs).1.failed_renames
      = [⟨cs "a4", cs "Arquivo não encontrado"⟩,
         ⟨cs "a5", cs "Arquivo não encontrado"⟩] ∧
    ((execute_rename (fun _ => true) (cs "op") (cs "ts")
        ⟨⟨[], cs "t0", none⟩, []⟩ claim6Plan claim6Fs).2.1.history.operations.map
          (fun o => o.successful_renames.length)) = [3] :=
  ⟨(claim6_theorem (fun _ => true) (cs "op") (cs "ts") ⟨⟨[], cs "t0", none⟩, []⟩
      claim6Plan claim6Fs ⟨cs "a4", cs "a4", cs "b4", cs "b4", cs "ready", [], [], []⟩
      (by decide) (by decide) (by decide) (by decide)).1,
    by decide, by decide, by decide, by decide⟩

theorem truncPreview_spec (s : List Char) :
    (truncPreview s).length ≤ 100 ∨
      ((truncPreview s).length = 103 ∧ (truncPreview s).drop 100 = cs "...") := by
  unfold truncPreview
  split
  · next h =>
    right
    have htake : (List.take 100 s).length = 100 := by
      rw [List.length_take]
      omega
    constructor
    · rw [List.length_append, htake]
      rfl
    · exact List.drop_left' htake
  · next h =>
    left
    omega

/-- C9: amended form.  Every ready entry produced by `preview_rename`
carries a `content_preview` of at most 100 characters when the
underlying extraction preview fits, and of exactly 103 characters —
the first 100 characters followed by the three-character ellipsis
marker `...` — when the underlying preview exceeds 100 characters
(the marker is appended after, not within, the 100-character cut). -/
theorem claim9_theorem (readers : List Char → Option (List Char → ReadResult))
    (ts preciseTs : List Char) (fs : List Char → Bool)
    (paths types : List (List Char)) (e : PlanEntry)
    (he : e ∈ preview_rename readers ts preciseTs fs paths types)
    (hst : e.status = cs "ready") :
    e.content_preview.length ≤ 100 ∨
      (e.content_preview.length = 103 ∧ e.content_preview.drop 100 = cs "...") := by
  obtain ⟨p, hp, hsome⟩ := List.mem_filterMap.mp he
  unfold preview_one at hsome
  dsimp only at hsome
  split at hsome
  · cases hsome
  · split at hsome
    · cases hsome
      exact absurd hst (show ¬ (cs "error" = cs "ready") by decide)
    · split at hsome
      · cases hsome
        exact absurd hst (show ¬ (cs "error" = cs "ready") by decide)
      · cases hsome
        exact truncPreview_spec _

/-- C9 witness: the amended theorem applied to the single ready entry of
a concrete one-file plan whose extraction preview has 101 characters. -/
theorem claim9_witness :
    (⟨cs "a.csv", cs "a.csv", cs "T_2024-01-01_10h00.csv", cs "T_2024-01-01_10h00.csv",
        cs "ready", cs "T", List.replicate 100 'x' ++ cs "...", []⟩
        : PlanEntry).content_preview.length ≤ 100 ∨
    ((⟨cs "a.csv", cs "a.csv", cs "T_2024-01-01_10h00.csv", cs "T_2024-01-01_10h00.csv",
        cs "ready", cs "T", List.replicate 100 'x' ++ cs "...", []⟩
        : PlanEntry).content_preview.length = 103 ∧
      (⟨cs "a.csv", cs "a.csv", cs "T_2024-01-01_10h00.csv", cs "T_2024-01-01_10h00.csv",
        cs "ready", cs "T", List.replicate 100 'x' ++ cs "...", []⟩
        : PlanEntry).content_preview.drop 100 = cs "...") :=
  claim9_theorem
    (fun t => if t == cs "csv"
      then some (fun _ => ⟨true, cs "T", List.replicate 101 'x', []⟩) else none)
    (cs "2024-01-01_10h00") (cs "p") (fun _ => false) [cs "a.csv"] [cs "csv"]
    ⟨cs "a.csv", cs "a.csv", cs "T_2024-01-01_10h00.csv", cs "T_2024-01-01_10h00.csv",
      cs "ready", cs "T", List.replicate 100 'x' ++ cs "...", []⟩
    (by decide) (by decide)

/-- C9 counterexample to the claim as stated: a ready entry whose
`content_preview` has 103 characters — more than the claimed bound of
100 — because the ellipsis marker is appended after the 100-character
truncation. -/
theorem claim9_counterexample :
    ∃ e ∈ preview_rename
        (fun t => if t == cs "csv"
          then some (fun _ => ⟨true, cs "T", List.replicate 101 'x', []⟩) else none)
        (cs "2024-01-01_10h00") (cs "p") (fun _ => false) [cs "a.csv"] [cs "csv"],
      e.status = cs "ready" ∧ ¬ (e.content_preview.length ≤ 100) := by
  decide

/-- C10: amended form.  Classification is indeed case-insensitive — the
suffix is lowercased before the type lookup, so two paths whose suffixes
agree up to case receive the same type label, the same skip-or-plan
decision, and (when the chosen reader extracts the same content from
both) plan entries with the same status, extracted title and content
preview.  The entries are nevertheless not identical: besides the
original-path fields, the synthesized `new_name` keeps the original
extension's case. -/
theorem claim10_theorem (readers : List Char → Option (List Char → ReadResult))
    (ts preciseTs : List Char) (fs : List Char → Bool) (types : List (List Char))
    (p1 p2 : List Char)
    (hext : toLowerL (pySuffix p1) = toLowerL (pySuffix p2))
    (hrd : ∀ f, readers (get_file_type_from_extension (toLowerL (pySuffix p1))) = some f →
      f p1 = f p2) :
    get_file_type_from_extension (toLowerL (pySuffix p1))
        = get_file_type_from_extension (toLowerL (pySuffix p2)) ∧
    ((preview_one readers ts preciseTs fs types p1).isSome
        ↔ (preview_one readers ts preciseTs fs types p2).isSome) ∧
    (∀ e1 e2, preview_one readers ts preciseTs fs types p1 = some e1 →
      preview_one readers ts preciseTs fs types p2 = some e2 →
      e1.status = e2.status ∧ e1.title_extracted = e2.title_extracted ∧
        e1.content_preview = e2.content_preview) := by
  refine ⟨by rw [hext], ?_, ?_⟩
  · unfold preview_one
    dsimp only
    rw [← hext]
    by_cases hmem : get_file_type_from_extension (toLowerL (pySuffix p1)) ∈ types
    · rw [if_neg (not_not_intro hmem), if_neg (not_not_intro hmem)]
      cases hR : readers (get_file_type_from_extension (toLowerL (pySuffix p1))) with
      | none => simp
      | some f =>
        have hf := hrd f hR
        dsimp only
        rw [← hf]
        by_cases hs : (f p1).success = false
        · rw [if_pos hs, if_pos hs]
          simp
        · rw [if_neg hs, if_neg hs]
          simp
    · rw [if_pos hmem, if_pos hmem]
  · intro e1 e2 h1 h2
    unfold preview_one at h1 h2
    dsimp only at h1 h2
    rw [← hext] at h2
    by_cases hmem : get_file_type_from_extension (toLowerL (pySuffix p1)) ∈ types
    · rw [if_neg (not_not_intro hmem)] at h1 h2
      cases hR : readers (get_file_type_from_extension (toLowerL (pySuffix p1))) with
      | none =>
        rw [hR] at h1 h2
        cases h1
        cases h2
        exact ⟨rfl, rfl, rfl⟩
      | some f =>
        have hf := hrd f hR
        rw [hR] at h1 h2
        dsimp only at h1 h2
        rw [← hf] at h2
        by_cases hs : (f p1).success = false
        · rw [if_pos hs] at h1 h2
          cases h1
          cases h2
          exact ⟨rfl, rfl, rfl⟩
        · rw [if_neg hs] at h1 h2
          cases h1
          cases h2
          exact ⟨rfl, rfl, rfl⟩
    · rw [if_pos hmem] at h1
      cases h1

/-- C10 witness: the amended theorem applied to `a.DOCX` versus `a.docx`
with a reader that returns the same extraction for both. -/
theorem claim10_witness :
    toLowerL (pySuffix (cs "a.DOCX")) = toLowerL (pySuffix (cs "a.docx")) ∧
    (get_file_type_from_extension (toLowerL (pySuffix (cs "a.DOCX")))
        = get_file_type_from_extension (toLowerL (pySuffix (cs "a.docx"))) ∧
      ((preview_one
          (fun t => if t == cs "word"
            then some (fun _ => ⟨true, cs "T", [], []⟩) else none)
          (cs "2024-01-01_10h00") (cs "p") (fun _ => false) [cs "word"]
          (cs "a.DOCX")).isSome
        ↔ (preview_one
          (fun t => if t == cs "word"
            then some (fun _ => ⟨true, cs "T", [], []⟩) else none)
          (cs "2024-01-01_10h00") (cs "p") (fun _ => false) [cs "word"]
          (cs "a.docx")).isSome)) :=
  ⟨by decide,
    (claim10_theorem
      (fun t => if t == cs "word"
        then some (fun _ => ⟨true, cs "T", [], []⟩) else none)
      (cs "2024-01-01_10h00") (cs "p") (fun _ => false) [cs "word"]
      (cs "a.DOCX") (cs "a.docx") (by decide)
      (fun f h => by rw [← Option.some.inj h])).1,
    (claim10_theorem
      (fun t => if t == cs "word"
        then some (fun _ => ⟨true, cs "T", [], []⟩) else none)
      (cs "2024-01-01_10h00") (cs "p") (fun _ => false) [cs "word"]
      (cs "a.DOCX") (cs "a.docx") (by decide)
      (fun f h => by rw [← Option.some.inj h])).2.1⟩

/-- C10 counterexample to the claim as stated: `a.DOCX` and `a.docx`
receive the same type label, yet they are not planned identically — the
synthesized `new_name` preserves the extension's original case, so the
two plan entries differ. -/
theorem claim10_counterexample :
    toLowerL (pySuffix (cs "a.DOCX")) = toLowerL (pySuffix (cs "a.docx")) ∧
    get_file_type_from_extension (pySuffix (cs "a.DOCX"))
      = get_file_type_from_extension (pySuffix (cs "a.docx")) ∧
    (preview_one
        (fun t => if t == cs "word"
          then some (fun _ => ⟨true, cs "T", [], []⟩) else none)
        (cs "2024-01-01_10h00") (cs "p") (fun _ => false) [cs "word"]
        (cs "a.DOCX")).map (fun e => e.new_name)
      = some (cs "T_2024-01-01_10h00.DOCX") ∧
    (preview_one
        (fun t => if t == cs "word"
          then some (fun _ => ⟨true, cs "T", [], []⟩) else none)
        (cs "2024-01-01_10h00") (cs "p") (fun _ => false) [cs "word"]
        (cs "a.docx")).map (fun e => e.new_name)
      = some (cs "T_2024-01-01_10h00.docx") := by
  refine ⟨by decide, by decide, by decide, by decide⟩

/-- Two plan entries touch disjoint paths: neither entry's original or
target path coincides with any path of the other. -/
def EntryDisjoint (e1 e2 : PlanEntry) : Prop :=
  e1.original_path ≠ e2.original_path ∧ e1.original_path ≠ e2.new_path ∧
    e1.new_path ≠ e2.original_path ∧ e1.new_path ≠ e2.new_path

/-- Two rename records touch disjoint paths. -/
def RecDisjoint (r1 r2 : RenameRecord) : Prop :=
  r1.original_path ≠ r2.original_path ∧ r1.original_path ≠ r2.new_path ∧
    r1.new_path ≠ r2.original_path ∧ r1.new_path ≠ r2.new_path

theorem fsRename_at_new (oldP newP : List Char) (fs : List Char → Bool) :
    fsRename oldP newP fs newP = true := by
  unfold fsRename
  rw [if_pos rfl]

theorem fsRename_old_false {oldP newP : List Char} (fs : List Char → Bool)
    (h : oldP ≠ newP) : fsRename oldP newP fs oldP = false := by
  unfold fsRename
  rw [if_neg h, if_pos rfl]

theorem execGo_succ_sublist (w : List Char → Bool) (ts : List Char) :
    ∀ (plan : List PlanEntry) (fs : List Char → Bool),
      List.Sublist (execGo w ts plan fs).succ (plan.map (mkRec ts)) := by
  intro plan
  induction plan with
  | nil => intro fs; exact List.Sublist.refl _
  | cons e rest ih =>
    intro fs
    simp only [execGo, List.map_cons]
    repeat' split
    all_goals first
      | exact List.Sublist.cons _ (ih fs)
      | exact List.Sublist.cons₂ _ (ih (fsRename e.original_path e.new_path fs))

theorem execGo_preserve_true (w : List Char → Bool) (ts : List Char) :
    ∀ (plan : List PlanEntry) (fs : List Char → Bool) (q : List Char),
      (∀ e ∈ plan, e.original_path ≠ q) → fs q = true →
      (execGo w ts plan fs).fs q = true := by
  intro plan
  induction plan with
  | nil =>
    intro fs q _ hq
    exact hq
  | cons e rest ih =>
    intro fs q hne hq
    have hne' : ∀ x ∈ rest, x.original_path ≠ q :=
      fun x hx => hne x (List.mem_cons_of_mem _ hx)
    simp only [execGo]
    repeat' split
    all_goals first
      | exact ih fs q hne' hq
      | exact ih _ q hne'
          (fsRename_true_of (Ne.symm (hne e (List.mem_cons_self _ _))) hq)

theorem execGo_new_exists (w : List Char → Bool) (ts : List Char) :
    ∀ (plan : List PlanEntry) (fs : List Char → Bool),
      plan.Pairwise EntryDisjoint →
      ∀ r ∈ (execGo w ts plan fs).succ, (execGo w ts plan fs).fs r.new_path = true := by
  intro plan
  induction plan with
  | nil =>
    intro fs _ r hr
    cases hr
  | cons e rest ih =>
    intro fs hpw r hr
    have hpw' := (List.pairwise_cons.mp hpw).2
    have hrel := (List.pairwise_cons.mp hpw).1
    by_cases c1 : e.status ≠ cs "ready"
    · simp only [execGo, if_pos c1] at hr ⊢
      exact ih fs hpw' r hr
    · by_cases c2 : fs e.original_path = false
      · simp only [execGo, if_neg c1, if_pos c2] at hr ⊢
        exact ih fs hpw' r hr
      · by_cases c3 : w (pyParent e.original_path) = false
        · simp only [execGo, if_neg c1, if_neg c2, if_pos c3] at hr ⊢
          exact ih fs hpw' r hr
        · simp only [execGo, if_neg c1, if_neg c2, if_neg c3] at hr ⊢
          rcases List.mem_cons.mp hr with hr | hr
          · subst hr
            refine execGo_preserve_true w ts rest _ _ ?_ (fsRename_at_new _ _ _)
            intro x hx
            exact Ne.symm ((hrel x hx).2.2.1)
          · exact ih _ hpw' r hr

theorem execGo_succ_pairwise (w : List Char → Bool) (ts : List Char)
    (plan : List PlanEntry) (fs : List Char → Bool)
    (hpw : plan.Pairwise EntryDisjoint) :
    (execGo w ts plan fs).succ.Pairwise RecDisjoint := by
  refine List.Pairwise.sublist (execGo_succ_sublist w ts plan fs) ?_
  rw [List.pairwise_map]
  exact hpw.imp (fun h => h)

theorem execGo_succ_ne (w : List Char → Bool) (ts : List Char)
    (plan : List PlanEntry) (fs : List Char → Bool)
    (hne : ∀ e ∈ plan, e.original_path ≠ e.new_path) :
    ∀ r ∈ (execGo w ts plan fs).succ, r.original_path ≠ r.new_path := by
  intro r hr
  have hmem := (execGo_succ_sublist w ts plan fs).subset hr
  obtain ⟨e, he, rfl⟩ := List.mem_map.mp hmem
  exact hne e he

theorem revertGo_preserve_true :
    ∀ (rs : List RenameRecord) (fs : List Char → Bool) (q : List Char),
      (∀ r ∈ rs, r.new_path ≠ q) → fs q = true → (revertGo rs fs).fs q = true := by
  intro rs
  induction rs with
  | nil =>
    intro fs q _ hq
    exact hq
  | cons r rest ih =>
    intro fs q hne hq
    have hne' : ∀ x ∈ rest, x.new_path ≠ q :=
      fun x hx => hne x (List.mem_cons_of_mem _ hx)
    by_cases hc : fs r.new_path = true
    · simp only [revertGo, if_pos hc]
      exact ih _ q hne'
        (fsRename_true_of (Ne.symm (hne r (List.mem_cons_self _ _))) hq)
    · simp only [revertGo, if_neg hc]
      exact ih fs q hne' hq

theorem revertGo_preserve_false :
    ∀ (rs : List RenameRecord) (fs : List Char → Bool) (q : List Char),
      (∀ r ∈ rs, r.original_path ≠ q) → fs q = false → (revertGo rs fs).fs q = false := by
  intro rs
  induction rs with
  | nil =>
    intro fs q _ hq
    exact hq
  | cons r rest ih =>
    intro fs q hne hq
    have hne' : ∀ x ∈ rest, x.original_path ≠ q :=
      fun x hx => hne x (List.mem_cons_of_mem _ hx)
    by_cases hc : fs r.new_path = true
    · simp only [revertGo, if_pos hc]
      exact ih _ q hne'
        (fsRename_false_of (Ne.symm (hne r (List.mem_cons_self _ _))) hq)
    · simp only [revertGo, if_neg hc]
      exact ih fs q hne' hq

theorem revertGo_restores :
    ∀ (rs : List RenameRecord) (fs : List Char → Bool) (r0 : RenameRecord),
      rs.Pairwise RecDisjoint → (∀ r ∈ rs, r.original_path ≠ r.new_path) →
      r0 ∈ rs → fs r0.new_path = true →
      (revertGo rs fs).fs r0.original_path = true ∧
        (revertGo rs fs).fs r0.new_path = false := by
  intro rs
  induction rs with
  | nil =>
    intro fs r0 _ _ h
    cases h
  | cons r rest ih =>
    intro fs r0 hpw hne hr0 hnew
    have hpw' := (List.pairwise_cons.mp hpw).2
    have hrel := (List.pairwise_cons.mp hpw).1
    have hne' : ∀ x ∈ rest, x.original_path ≠ x.new_path :=
      fun x hx => hne x (List.mem_cons_of_mem _ hx)
    rcases List.mem_cons.mp hr0 with hr0 | hr0
    · subst hr0
      simp only [revertGo, if_pos hnew]
      constructor
      · refine revertGo_preserve_true rest _ _ ?_ (fsRename_at_new _ _ _)
        intro x hx
        exact Ne.symm ((hrel x hx).2.1)
      · refine revertGo_preserve_false rest _ _ ?_
          (fsRename_old_false _ (Ne.symm (hne r0 (List.mem_cons_self _ _))))
        intro x hx
        exact Ne.symm ((hrel x hx).2.2.1)
    · have hrelr0 := hrel r0 hr0
      by_cases hc : fs r.new_path = true
      · simp only [revertGo, if_pos hc]
        refine ih _ r0 hpw' hne' hr0 ?_
        exact fsRename_true_of (Ne.symm hrelr0.2.2.2) hnew
      · simp only [revertGo, if_neg hc]
        exact ih fs r0 hpw' hne' hr0 hnew

theorem findOperation_append (ops : List OperationRecord) (op : OperationRecord)
    (h : ∀ o ∈ ops, o.operation_id ≠ op.operation_id) :
    findOperation (ops ++ [op]) op.operation_id = some op := by
  induction ops with
  | nil => simp [findOperation, List.find?]
  | cons o rest ih =>
    have hno : (o.operation_id == op.operation_id) = false := by
      rw [beq_eq_false_iff_ne]
      exact h o (List.mem_cons_self _ _)
    simp only [List.cons_append, findOperation, List.find?, hno]
    exact ih (fun x hx => h x (List.mem_cons_of_mem _ hx))

/-- C2: amended form.  For every file successfully renamed by
`execute_rename`, reverting that operation (with no external filesystem
change in between) restores a file at the original path and leaves none
at the renamed path, PROVIDED the plan's entries touch pairwise-disjoint
paths (no entry's original or target path coincides with another entry's,
nor with its own target) and the operation id is fresh in the history.
Without the disjointness proviso the claim fails: conflict resolution
checks only the filesystem, so two entries of one plan can share a
target path, and chained or duplicated paths break the revert (see the
counterexample). -/
theorem claim2_theorem (w : List Char → Bool) (opId execTs : List Char)
    (s : RenamerState) (plan : List PlanEntry) (fs : List Char → Bool)
    (hpw : plan.Pairwise EntryDisjoint)
    (hne : ∀ e ∈ plan, e.original_path ≠ e.new_path)
    (hfresh : ∀ o ∈ s.history.operations, o.operation_id ≠ opId)
    (r : RenameRecord)
    (hr : r ∈ (execute_rename w opId execTs s plan fs).1.successful_renames) :
    (revert_operation (execute_rename w opId execTs s plan fs).2.1 opId
        (execute_rename w opId execTs s plan fs).2.2).2.2 r.original_path = true ∧
    (revert_operation (execute_rename w opId execTs s plan fs).2.1 opId
        (execute_rename w opId execTs s plan fs).2.2).2.2 r.new_path = false := by
  have hfind : findOperation
      (execute_rename w opId execTs s plan fs).2.1.history.operations opId
      = some (buildOperation w opId execTs plan fs) :=
    findOperation_append s.history.operations (buildOperation w opId execTs plan fs) hfresh
  unfold revert_operation
  rw [hfind]
  dsimp only
  exact revertGo_restores (execGo w execTs plan fs).succ (execGo w execTs plan fs).fs r
    (execGo_succ_pairwise w execTs plan fs hpw)
    (execGo_succ_ne w execTs plan fs hne)
    hr
    (execGo_new_exists w execTs plan fs hpw r hr)

/-- C2 witness: a one-file plan (`a` renamed to `b`) executed then
reverted: the file is back at `a` and gone from `b`. -/
theorem claim2_witness :
    ((⟨cs "a", cs "b", cs "a", cs "b", cs "ts"⟩ : RenameRecord)
        ∈ (execute_rename (fun _ => true) (cs "op1") (cs "ts")
            ⟨⟨[], cs "t0", none⟩, []⟩
            [⟨cs "a", cs "a", cs "b", cs "b", cs "ready", [], [], []⟩]
            (fun p => p == cs "a")).1.successful_renames) ∧
    (revert_operation (execute_rename (fun _ => true) (cs "op1") (cs "ts")
          ⟨⟨[], cs "t0", none⟩, []⟩
          [⟨cs "a", cs "a", cs "b", cs "b", cs "ready", [], [], []⟩]
          (fun p => p == cs "a")).2.1 (cs "op1")
        (execute_rename (fun _ => true) (cs "op1") (cs "ts")
          ⟨⟨[], cs "t0", none⟩, []⟩
          [⟨cs "a", cs "a", cs "b", cs "b", cs "ready", [], [], []⟩]
          (fun p => p == cs "a")).2.2).2.2
      (⟨cs "a", cs "b", cs "a", cs "b", cs "ts"⟩ : RenameRecord).original_path = true ∧
    (revert_operation (execute_rename (fun _ => true) (cs "op1") (cs "ts")
          ⟨⟨[], cs "t0", none⟩, []⟩
          [⟨cs "a", cs "a", cs "b", cs "b", cs "ready", [], [], []⟩]
          (fun p => p == cs "a")).2.1 (cs "op1")
        (execute_rename (fun _ => true) (cs "op1") (cs "ts")
          ⟨⟨[], cs "t0", none⟩, []⟩
          [⟨cs "a", cs "a", cs "b", cs "b", cs "ready", [], [], []⟩]
          (fun p => p == cs "a")).2.2).2.2
      (⟨cs "a", cs "b", cs "a", cs "b", cs "ts"⟩ : RenameRecord).new_path = false :=
  ⟨by decide,
    (claim2_theorem (fun _ => true) (cs "op1") (cs "ts") ⟨⟨[], cs "t0", none⟩, []⟩
        [⟨cs "a", cs "a", cs "b", cs "b", cs "ready", [], [], []⟩]
        (fun p => p == cs "a")
        (List.pairwise_singleton _ _)
        (by decide) (by decide)
        ⟨cs "a", cs "b", cs "a", cs "b", cs "ts"⟩ (by decide)).1,
    (claim2_theorem (fun _ => true) (cs "op1") (cs "ts") ⟨⟨[], cs "t0", none⟩, []⟩
        [⟨cs "a", cs "a", cs "b", cs "b", cs "ready", [], [], []⟩]
        (fun p => p == cs "a")
        (List.pairwise_singleton _ _)
        (by decide) (by decide)
        ⟨cs "a", cs "b", cs "a", cs "b", cs "ts"⟩ (by decide)).2⟩

/-- C2 counterexample to the claim as stated: the two-entry plan
`a → b`, `b → c` over a filesystem containing only `a` executes both
renames successfully (the second picks up the file the first just moved
to `b`), and reverting the operation does NOT restore a file at `a` —
the replay of `b → a` finds nothing at `b` — while a file remains at the
renamed path `b`. -/
theorem claim2_counterexample :
    ((⟨cs "a", cs "b", cs "a", cs "b", cs "ts"⟩ : RenameRecord)
        ∈ (execute_rename (fun _ => true) (cs "op1") (cs "ts")
            ⟨⟨[], cs "t0", none⟩, []⟩
            [⟨cs "a", cs "a", cs "b", cs "b", cs "ready", [], [], []⟩,
             ⟨cs "b", cs "b", cs "c", cs "c", cs "ready", [], [], []⟩]
            (fun p => p == cs "a")).1.successful_renames) ∧
    (revert_operation (execute_rename (fun _ => true) (cs "op1") (cs "ts")
          ⟨⟨[], cs "t0", none⟩, []⟩
          [⟨cs "a", cs "a", cs "b", cs "b", cs "ready", [], [], []⟩,
           ⟨cs "b", cs "b", cs "c", cs "c", cs "ready", [], [], []⟩]
          (fun p => p == cs "a")).2.1 (cs "op1")
        (execute_rename (fun _ => true) (cs "op1") (cs "ts")
          ⟨⟨[], cs "t0", none⟩, []⟩
          [⟨cs "a", cs "a", cs "b", cs "b", cs "ready", [], [], []⟩,
           ⟨cs "b", cs "b", cs "c", cs "c", cs "ready", [], [], []⟩]
          (fun p => p == cs "a")).2.2).2.2 (cs "a") = false ∧
    (revert_operation (execute_rename (fun _ => true) (cs "op1") (cs "ts")
          ⟨⟨[], cs "t0", none⟩, []⟩
          [⟨cs "a", cs "a", cs "b", cs "b", cs "ready", [], [], []⟩,
           ⟨cs "b", cs "b", cs "c", cs "c", cs "ready", [], [], []⟩]
          (fun p => p == cs "a")).2.1 (cs "op1")
        (execute_rename (fun _ => true) (cs "op1") (cs "ts")
          ⟨⟨[], cs "t0", none⟩, []⟩
          [⟨cs "a", cs "a", cs "b", cs "b", cs "ready", [], [], []⟩,
           ⟨cs "b", cs "b", cs "c", cs "c", cs "ready", [], [], []⟩]
          (fun p => p == cs "a")).2.2).2.2 (cs "b") = true := by
  refine ⟨by decide, by decide, by decide⟩

/-- Sanity checks of the embedding against hand-computed outputs of the
Python source on concrete inputs. -/
theorem embedding_sanity :
    isTimestampForm (cs "2024-01-01_10h00") = true ∧
    isTimestampForm (cs "2024-01-01 10:00") = false ∧
    safe_filename (cs "  a  b  ") 100 = cs "a b" ∧
    pySuffix (cs "docs/r.docx") = cs ".docx" ∧
    pyStem (cs "docs/r.docx") = cs "r" ∧
    pyParent (cs "docs/r.docx") = cs "docs" ∧
    pyParent (cs "r.docx") = cs "." ∧
    generate_new_filename (cs "Report: Q1") (cs "docs/r.docx") (cs "2024-01-01_10h00")
      = cs "Report__Q1_2024-01-01_10h00.docx" ∧
    conflict_candidate (cs "t.txt") 1 = cs "t_001.txt" ∧
    get_file_type_from_extension (cs ".DOCX") = cs "word" := by
  refine ⟨by decide, by decide, by decide, by decide, by decide, by decide, by decide,
    by decide, by decide, by decide⟩
